import Mathlib

/-!
Verification of the lookup layer of `wikimapper` (`wikimapper/mapper.py`).

The Index Store is modelled as a list of rows of the `mapping` table, in
storage retrieval order.  The four query operations of `WikiMapper` are
translated as pure functions over that list; SQL `SELECT ... WHERE col = ?`
becomes `List.filter`, `SELECT DISTINCT` becomes a first-occurrence
de-duplication, and `COLLATE NOCASE` becomes ASCII case folding (SQLite's
NOCASE collation folds the 26 ASCII letters only).  Python truthiness of an
`Optional[str]` cell (`if item[0]`) is `pyTruthy`: `None` and the empty
string are falsy.
-/

/-- One row of the `mapping` table: `(wikipedia_title, wikipedia_id,
wikidata_id)`, the `wikidata_id` column being nullable. -/
structure MappingRecord where
  wikipedia_title : String
  wikipedia_id : String
  wikidata_id : Option String
deriving Repr, DecidableEq

/-- The `mapping` table in storage retrieval order. -/
abbrev Store := List MappingRecord

/-- SQLite's NOCASE collation folds only the upper-case ASCII letters. -/
def asciiLower (c : Char) : Char :=
  if 'A' ≤ c ∧ c ≤ 'Z' then Char.ofNat (c.toNat + 32) else c

/-- String equality under the NOCASE collation. -/
def nocaseEq (a b : String) : Bool :=
  a.data.map asciiLower == b.data.map asciiLower

/-- The `WHERE wikipedia_title = ?` test, with or without `COLLATE NOCASE`. -/
def titleMatches (uncased : Bool) (t : String) (r : MappingRecord) : Bool :=
  if uncased then nocaseEq r.wikipedia_title t else r.wikipedia_title == t

/-- Python truthiness of an `Optional[str]`: `None` and `""` are falsy. -/
def pyTruthy : Option String → Bool
  | none => false
  | some s => s != ""

/-- First-occurrence de-duplication with an accumulator of already seen
values; models `SELECT DISTINCT` keeping storage retrieval order. -/
def dedupFirstAux [DecidableEq α] (seen : List α) : List α → List α
  | [] => []
  | x :: xs =>
      if x ∈ seen then dedupFirstAux seen xs
      else x :: dedupFirstAux (x :: seen) xs

/-- `SELECT DISTINCT` over a fetched column, keeping the first occurrence of
each value in storage retrieval order. -/
def dedupFirst [DecidableEq α] (l : List α) : List α :=
  dedupFirstAux [] l

/-- `WikiMapper.title_to_id`: fetch the `wikidata_id` column of all rows whose
title matches, then return the first truthy value, or `none` when there is no
matching row or no truthy value. -/
def title_to_id (s : Store) (page_title : String) (uncased : Bool) : Option String :=
  let results := (s.filter (titleMatches uncased page_title)).map (·.wikidata_id)
  if results.length = 0 then none
  else if results.any pyTruthy then (results.find? pyTruthy).join
  else none

/-- `wiki_url.rsplit("/", 1)[-1]`: the characters after the last `/` of the
string (the whole string when it has no `/`). -/
def rsplitLast (url : String) : String :=
  ⟨(url.data.reverse.takeWhile (· != '/')).reverse⟩

/-- `WikiMapper.url_to_id`: delegate to `title_to_id` on the last path
segment, with default (case-sensitive) matching. -/
def url_to_id (s : Store) (wiki_url : String) : Option String :=
  title_to_id s (rsplitLast wiki_url) false

/-- `WikiMapper.id_to_titles`: `SELECT DISTINCT wikipedia_title` over the rows
whose `wikidata_id` equals the query (a NULL cell never matches). -/
def id_to_titles (s : Store) (wikidata_id : String) : List String :=
  dedupFirst ((s.filter (fun r => r.wikidata_id == some wikidata_id)).map (·.wikipedia_title))

/-- `WikiMapper.pid_to_id`: `SELECT DISTINCT wikidata_id` over the rows whose
`wikipedia_id` equals the query; `None` when no row matches, otherwise the
first fetched cell (which may itself be NULL). -/
def pid_to_id (s : Store) (wikipedia_id : String) : Option String :=
  let results := dedupFirst ((s.filter (fun r => r.wikipedia_id == wikipedia_id)).map (·.wikidata_id))
  match results with
  | [] => none
  | x :: _ => x

/-- Modelled from the spec: `title_to_id`'s disambiguation rule as §4.2 words
it, "return the first non-null wikidata id found" among the matching rows
(case-sensitive matching), absent when there is none.  Used only to compare
the spec's wording against the code's behaviour. -/
def titleToIdSpecRule (s : Store) (t : String) : Option String :=
  (((s.filter (fun r => r.wikipedia_title == t)).map (·.wikidata_id)).find? (·.isSome)).join

/-! ### Stateful view of the four methods

For the frame property the methods are also given in state-passing style.
A `WikiMapper` holds only the database path set by `__init__`; a call opens
the store persisted at that path, executes its single `SELECT` (a read that
leaves the table as it was), persists that table back at the path on exit of
the `with` block, and returns the mapper unchanged. -/

/-- The `WikiMapper` object: its only attribute is `_path_to_db`. -/
structure WikiMapper where
  path_to_db : String
deriving Repr, DecidableEq

/-- The persisted world: which `mapping` table lives at which path. -/
abbrev FileSystem : Type := String → Store

/-- `sqlite3.connect`: the connection sees the table stored at the path. -/
def connectDB (fs : FileSystem) (path : String) : Store := fs path

/-- The method `title_to_id` as a call: result, post-call file system,
post-call mapper object. -/
def WikiMapper.titleToIdCall (m : WikiMapper) (fs : FileSystem) (t : String)
    (uncased : Bool) : Option String × FileSystem × WikiMapper :=
  let db := connectDB fs m.path_to_db
  (title_to_id db t uncased, Function.update fs m.path_to_db db, m)

/-- The method `url_to_id` as a call: it only delegates to `title_to_id`. -/
def WikiMapper.urlToIdCall (m : WikiMapper) (fs : FileSystem) (url : String) :
    Option String × FileSystem × WikiMapper :=
  m.titleToIdCall fs (rsplitLast url) false

/-- The method `id_to_titles` as a call. -/
def WikiMapper.idToTitlesCall (m : WikiMapper) (fs : FileSystem) (d : String) :
    List String × FileSystem × WikiMapper :=
  let db := connectDB fs m.path_to_db
  (id_to_titles db d, Function.update fs m.path_to_db db, m)

/-- The method `pid_to_id` as a call. -/
def WikiMapper.pidToIdCall (m : WikiMapper) (fs : FileSystem) (p : String) :
    Option String × FileSystem × WikiMapper :=
  let db := connectDB fs m.path_to_db
  (pid_to_id db p, Function.update fs m.path_to_db db, m)

/-! ### Helper lemmas -/

theorem mem_dedupFirstAux [DecidableEq α] (a : α) (seen : List α) (l : List α) :
    a ∈ dedupFirstAux seen l ↔ a ∈ l ∧ a ∉ seen := by
  induction l generalizing seen with
  | nil => simp [dedupFirstAux]
  | cons x xs ih =>
      by_cases hx : x ∈ seen
      · simp only [dedupFirstAux, if_pos hx, ih, List.mem_cons]
        constructor
        · rintro ⟨hm, hs⟩; exact ⟨Or.inr hm, hs⟩
        · rintro ⟨hm | hm, hs⟩
          · exact absurd (hm ▸ hx) hs
          · exact ⟨hm, hs⟩
      · simp only [dedupFirstAux, if_neg hx, List.mem_cons, ih]
        constructor
        · rintro (rfl | ⟨hm, hs⟩)
          · exact ⟨Or.inl rfl, hx⟩
          · exact ⟨Or.inr hm, fun hsa => hs (Or.inr hsa)⟩
        · rintro ⟨rfl | hm, hs⟩
          · exact Or.inl rfl
          · by_cases hax : a = x
            · exact Or.inl hax
            · exact Or.inr ⟨hm, by simp [hax, hs]⟩

theorem dedupFirstAux_sublist [DecidableEq α] (seen : List α) (l : List α) :
    (dedupFirstAux seen l).Sublist l := by
  induction l generalizing seen with
  | nil => simp [dedupFirstAux]
  | cons x xs ih =>
      by_cases hx : x ∈ seen
      · rw [dedupFirstAux, if_pos hx]
        exact (ih seen).cons x
      · rw [dedupFirstAux, if_neg hx]
        exact (ih (x :: seen)).cons₂ x

theorem nodup_dedupFirstAux [DecidableEq α] (seen : List α) (l : List α) :
    (dedupFirstAux seen l).Nodup := by
  induction l generalizing seen with
  | nil => simp [dedupFirstAux]
  | cons x xs ih =>
      by_cases hx : x ∈ seen
      · rw [dedupFirstAux, if_pos hx]
        exact ih seen
      · rw [dedupFirstAux, if_neg hx, List.nodup_cons]
        refine ⟨fun hmem => ?_, ih (x :: seen)⟩
        exact ((mem_dedupFirstAux x (x :: seen) xs).mp hmem).2 (List.mem_cons_self x seen)

theorem head?_dedupFirst [DecidableEq α] (l : List α) :
    (dedupFirst l).head? = l.head? := by
  cases l with
  | nil => rfl
  | cons x xs =>
      rw [dedupFirst, dedupFirstAux, if_neg (List.not_mem_nil x)]
      rfl

theorem head?_filter_eq_find? (p : α → Bool) (l : List α) :
    (l.filter p).head? = l.find? p := by
  induction l with
  | nil => rfl
  | cons x xs ih =>
      by_cases hp : p x
      · simp [List.filter_cons, hp]
      · simp [List.filter_cons, List.find?_cons, hp, ih]

theorem takeWhile_of_forall {p : α → Bool} :
    ∀ {l : List α}, (∀ x ∈ l, p x = true) → l.takeWhile p = l
  | [], _ => rfl
  | x :: xs, h => by
      rw [List.takeWhile_cons_of_pos (h x (List.mem_cons_self x xs))]
      rw [takeWhile_of_forall fun y hy => h y (List.mem_cons_of_mem x hy)]

theorem titleMatches_false (t : String) :
    titleMatches false t = fun r => r.wikipedia_title == t := rfl

theorem title_to_id_find (s : Store) (t : String) (u : Bool) :
    title_to_id s t u
      = (((s.filter (titleMatches u t)).map (·.wikidata_id)).find? pyTruthy).join := by
  simp only [title_to_id]
  by_cases h0 : ((s.filter (titleMatches u t)).map (·.wikidata_id)).length = 0
  · rw [if_pos h0]
    rw [List.length_eq_zero] at h0
    rw [h0]
    rfl
  · rw [if_neg h0]
    by_cases ha : ((s.filter (titleMatches u t)).map (·.wikidata_id)).any pyTruthy = true
    · rw [if_pos ha]
    · rw [if_neg ha]
      have ha' : ∀ x ∈ (s.filter (titleMatches u t)).map (·.wikidata_id),
          ¬ pyTruthy x = true := fun x hx hpx => ha (List.any_eq_true.mpr ⟨x, hx, hpx⟩)
      rw [List.find?_eq_none.mpr ha']
      rfl

theorem pid_to_id_eq_head (s : Store) (p : String) :
    pid_to_id s p
      = (dedupFirst ((s.filter (fun r => r.wikipedia_id == p)).map (·.wikidata_id))).head?.join := by
  simp only [pid_to_id]
  cases dedupFirst ((s.filter (fun r => r.wikipedia_id == p)).map (·.wikidata_id)) with
  | nil => rfl
  | cons x xs => rfl

theorem pid_to_id_find (s : Store) (p : String) :
    pid_to_id s p
      = ((s.find? (fun r => r.wikipedia_id == p)).map (·.wikidata_id)).join := by
  rw [pid_to_id_eq_head, head?_dedupFirst, List.head?_map, head?_filter_eq_find?]

theorem rsplitLast_concat (a b : String) (hb : '/' ∉ b.data) :
    rsplitLast (a ++ "/" ++ b) = b := by
  apply String.ext
  show ((a ++ "/" ++ b).data.reverse.takeWhile (· != '/')).reverse = b.data
  have hdata : (a ++ "/" ++ b).data = (a.data ++ ['/']) ++ b.data := by
    simp [String.data_append]
  have hall : ∀ x ∈ b.data.reverse, (x != '/') = true := by
    intro x hx
    have hxd : x ∈ b.data := List.mem_reverse.mp hx
    have hxne : x ≠ '/' := fun he => hb (he ▸ hxd)
    simpa using hxne
  rw [hdata, List.reverse_append, List.reverse_append]
  simp only [List.reverse_cons, List.reverse_nil, List.nil_append, List.singleton_append]
  rw [List.takeWhile_append_of_pos hall, List.takeWhile_cons_of_neg (by simp)]
  simp

theorem rsplitLast_no_slash (u : String) (hu : '/' ∉ u.data) :
    rsplitLast u = u := by
  apply String.ext
  show (u.data.reverse.takeWhile (· != '/')).reverse = u.data
  have hall : ∀ x ∈ u.data.reverse, (x != '/') = true := by
    intro x hx
    have hxd : x ∈ u.data := List.mem_reverse.mp hx
    have hxne : x ≠ '/' := fun he => hu (he ▸ hxd)
    simpa using hxne
  rw [takeWhile_of_forall hall]
  exact List.reverse_reverse _

-- Sanity checks on concrete stores.
example : title_to_id [⟨"T", "1", none⟩, ⟨"T", "2", some "Q1"⟩] "T" false = some "Q1" := by decide
example : title_to_id [⟨"T", "1", some ""⟩] "T" false = none := by decide
example : titleToIdSpecRule [⟨"T", "1", some ""⟩] "T" = some "" := by decide
example : id_to_titles [⟨"A", "1", some "Q1"⟩, ⟨"B", "2", some "Q1"⟩, ⟨"A", "3", some "Q1"⟩] "Q1" = ["A", "B"] := by decide
example : pid_to_id [⟨"A", "7", none⟩, ⟨"B", "7", some "Q5"⟩] "7" = none := by decide
example : pid_to_id [⟨"A", "339", some "Q132524"⟩] "339" = some "Q132524" := by decide
example : rsplitLast "https://en.wikipedia.org/wiki/Manatee" = "Manatee" := by decide
example : rsplitLast "Manatee" = "Manatee" := by decide
example : nocaseEq "Manatee" "manatee" = true := by decide

/-! ### Claim theorems -/

/-- Shared helper: when every matching row carries a NULL or empty
`wikidata_id`, no fetched cell is truthy. -/
theorem find?_truthy_none (s : Store) (t : String) (u : Bool)
    (h : ∀ r ∈ s, titleMatches u t r = true →
      r.wikidata_id = none ∨ r.wikidata_id = some "") :
    ((s.filter (titleMatches u t)).map (·.wikidata_id)).find? pyTruthy = none := by
  rw [List.find?_eq_none]
  intro v hv hpv
  obtain ⟨r, hrf, hrv⟩ := List.mem_map.mp hv
  obtain ⟨hrs, hrm⟩ := List.mem_filter.mp hrf
  rcases h r hrs hrm with hn | he <;> rw [← hrv] at hpv
  · rw [hn] at hpv
    simp [pyTruthy] at hpv
  · rw [he] at hpv
    simp [pyTruthy] at hpv

/-- C1 (counterexample): on a store whose single row for title `T` carries the
empty-string wikidata id, the code returns `none`, while the first non-null
wikidata id among the matching rows is `some ""` and not every matching row
has a null wikidata id, so the claimed rule demands a non-absent result. -/
theorem titleToId_specRule_counterexample :
    title_to_id [⟨"T", "1", some ""⟩] "T" false = none
    ∧ titleToIdSpecRule [⟨"T", "1", some ""⟩] "T" = some ""
    ∧ ¬ (∀ r ∈ ([⟨"T", "1", some ""⟩] : Store),
          r.wikipedia_title = "T" → r.wikidata_id = none) :=
  ⟨by decide, by decide, by decide⟩

/-- C1 (amended): `title_to_id` with default case-sensitive matching returns
the first non-null, non-empty wikidata id among the rows whose title equals
the query, in storage retrieval order; it returns `none` when no row matches
or every matching row's wikidata id is null or the empty string. -/
theorem titleToId_first_truthy (s : Store) (t : String) :
    ((∀ r ∈ s, r.wikipedia_title ≠ t) → title_to_id s t false = none)
    ∧ ((∀ r ∈ s, r.wikipedia_title = t →
          r.wikidata_id = none ∨ r.wikidata_id = some "") →
        title_to_id s t false = none)
    ∧ title_to_id s t false
        = (((s.filter (fun r => r.wikipedia_title == t)).map (·.wikidata_id)).find?
            pyTruthy).join := by
  refine ⟨?_, ?_, ?_⟩
  · intro h
    rw [title_to_id_find]
    have hnil : s.filter (titleMatches false t) = [] := by
      refine List.filter_eq_nil_iff.mpr fun r hr hm => h r hr ?_
      rw [titleMatches_false] at hm
      exact beq_iff_eq.mp hm
    rw [hnil]
    rfl
  · intro h
    rw [title_to_id_find]
    have h' : ∀ r ∈ s, titleMatches false t r = true →
        r.wikidata_id = none ∨ r.wikidata_id = some "" := by
      intro r hr hm
      rw [titleMatches_false] at hm
      exact h r hr (beq_iff_eq.mp hm)
    rw [find?_truthy_none s t false h']
    rfl
  · rw [title_to_id_find, titleMatches_false]

/-- C1 (witness for the amended theorem). -/
theorem titleToId_first_truthy_witness :
    title_to_id [⟨"A", "1", some "Q7"⟩] "T" false = none
    ∧ title_to_id [⟨"T", "1", some ""⟩, ⟨"T", "2", none⟩] "T" false = none :=
  ⟨(titleToId_first_truthy [⟨"A", "1", some "Q7"⟩] "T").1 (by decide),
   (titleToId_first_truthy [⟨"T", "1", some ""⟩, ⟨"T", "2", none⟩] "T").2.1 (by decide)⟩

/-- C2: `id_to_titles` returns the distinct titles of the rows whose
`wikidata_id` equals the query, without duplicates, in storage retrieval
order (a sublist of the matching rows' titles), and the empty list when no
row matches. -/
theorem idToTitles_distinct_ordered (s : Store) (d : String) :
    (id_to_titles s d).Nodup
    ∧ (∀ t, t ∈ id_to_titles s d
        ↔ ∃ r ∈ s, r.wikidata_id = some d ∧ r.wikipedia_title = t)
    ∧ (id_to_titles s d).Sublist
        ((s.filter (fun r => r.wikidata_id == some d)).map (·.wikipedia_title))
    ∧ ((∀ r ∈ s, r.wikidata_id ≠ some d) → id_to_titles s d = []) := by
  refine ⟨nodup_dedupFirstAux _ _, ?_, dedupFirstAux_sublist _ _, ?_⟩
  · intro t
    rw [id_to_titles, dedupFirst, mem_dedupFirstAux]
    simp only [List.not_mem_nil, not_false_iff, and_true, List.mem_map,
      List.mem_filter, beq_iff_eq]
    constructor
    · rintro ⟨r, ⟨hrs, hrm⟩, rfl⟩
      exact ⟨r, hrs, hrm, rfl⟩
    · rintro ⟨r, hrs, hrm, rfl⟩
      exact ⟨r, ⟨hrs, hrm⟩, rfl⟩
  · intro h
    rw [id_to_titles]
    have hnil : s.filter (fun r => r.wikidata_id == some d) = [] :=
      List.filter_eq_nil_iff.mpr fun r hr hm => h r hr (beq_iff_eq.mp hm)
    rw [hnil]
    rfl

/-- C2 (witness). -/
theorem idToTitles_distinct_ordered_witness :
    id_to_titles [⟨"A", "1", some "Q1"⟩] "Q42" = [] :=
  (idToTitles_distinct_ordered [⟨"A", "1", some "Q1"⟩] "Q42").2.2.2 (by decide)

/-- C3: `pid_to_id` returns `none` when no row matches the page id; when rows
match it returns the first encountered value among the distinct `wikidata_id`
values of those rows (equivalently, the value of the first matching row); in
particular a page id mapped only to `"Q132524"` yields `"Q132524"`. -/
theorem pidToId_spec (s : Store) (p : String) :
    ((∀ r ∈ s, r.wikipedia_id ≠ p) → pid_to_id s p = none)
    ∧ (∀ r, s.find? (fun x => x.wikipedia_id == p) = some r →
        pid_to_id s p = r.wikidata_id)
    ∧ (((∃ r ∈ s, r.wikipedia_id = p)
          ∧ ∀ r ∈ s, r.wikipedia_id = p → r.wikidata_id = some "Q132524")
        → pid_to_id s p = some "Q132524") := by
  refine ⟨?_, ?_, ?_⟩
  · intro h
    rw [pid_to_id_find,
      List.find?_eq_none.mpr fun r hr hm => h r hr (beq_iff_eq.mp hm)]
    rfl
  · intro r hr
    rw [pid_to_id_find, hr]
    rfl
  · rintro ⟨⟨r, hrs, hrp⟩, hall⟩
    have hsome : (s.find? (fun x => x.wikipedia_id == p)).isSome :=
      List.find?_isSome.mpr ⟨r, hrs, by simp [hrp]⟩
    obtain ⟨r0, hr0⟩ := Option.isSome_iff_exists.mp hsome
    have hr0s : r0 ∈ s := List.mem_of_find?_eq_some hr0
    have hp0 := List.find?_some hr0
    have hr0p : r0.wikipedia_id = p := beq_iff_eq.mp hp0
    rw [pid_to_id_find, hr0]
    simp [hall r0 hr0s hr0p]

/-- C3 (witness). -/
theorem pidToId_spec_witness :
    pid_to_id [⟨"Manatee", "339", some "Q132524"⟩] "339" = some "Q132524"
    ∧ pid_to_id [⟨"Manatee", "339", some "Q132524"⟩] "7" = none
    ∧ pid_to_id [⟨"A", "7", some "Q5"⟩, ⟨"B", "7", some "Q6"⟩] "7" = some "Q5" :=
  ⟨(pidToId_spec [⟨"Manatee", "339", some "Q132524"⟩] "339").2.2
      ⟨⟨⟨"Manatee", "339", some "Q132524"⟩, by decide, rfl⟩, by decide⟩,
   (pidToId_spec [⟨"Manatee", "339", some "Q132524"⟩] "7").1 (by decide),
   (pidToId_spec [⟨"A", "7", some "Q5"⟩, ⟨"B", "7", some "Q6"⟩] "7").2.1
      ⟨"A", "7", some "Q5"⟩ (by decide)⟩

/-- C4: `url_to_id` extracts the substring after the last `/` and delegates
to case-sensitive `title_to_id`; in particular the Manatee URL behaves like
`title_to_id "Manatee"`. -/
theorem urlToId_delegates (s : Store) (a b : String) (hb : '/' ∉ b.data) :
    url_to_id s (a ++ "/" ++ b) = title_to_id s b false
    ∧ url_to_id s "https://en.wikipedia.org/wiki/Manatee"
        = title_to_id s "Manatee" false := by
  constructor
  · rw [url_to_id, rsplitLast_concat a b hb]
  · rw [url_to_id]
    have hm : rsplitLast "https://en.wikipedia.org/wiki/Manatee" = "Manatee" := by
      decide
    rw [hm]

/-- C4 (witness). -/
theorem urlToId_delegates_witness :
    url_to_id [⟨"Manatee", "1", some "Q42"⟩] ("https://en.wikipedia.org/wiki" ++ "/" ++ "Manatee")
      = title_to_id [⟨"Manatee", "1", some "Q42"⟩] "Manatee" false :=
  (urlToId_delegates [⟨"Manatee", "1", some "Q42"⟩] "https://en.wikipedia.org/wiki"
    "Manatee" (by decide)).1

/-- C5: for a title with exactly two matching rows, one with a null wikidata
id and one with `"Q1"`, `title_to_id` returns `"Q1"` for both retrieval
orders of the two rows. -/
theorem titleToId_order_invariant (r1 r2 : MappingRecord) (t : String)
    (h1 : r1.wikipedia_title = t) (h2 : r2.wikipedia_title = t)
    (hn : r1.wikidata_id = none) (hq : r2.wikidata_id = some "Q1") :
    title_to_id [r1, r2] t false = some "Q1"
    ∧ title_to_id [r2, r1] t false = some "Q1" := by
  have e1 : (r1.wikipedia_title == t) = true := beq_iff_eq.mpr h1
  have e2 : (r2.wikipedia_title == t) = true := beq_iff_eq.mpr h2
  constructor
  · rw [title_to_id_find, titleMatches_false]
    have hf : List.filter (fun r => r.wikipedia_title == t) [r1, r2] = [r1, r2] := by
      simp [List.filter_cons, e1, e2]
    rw [hf]
    simp only [List.map_cons, List.map_nil, hn, hq]
    decide
  · rw [title_to_id_find, titleMatches_false]
    have hf : List.filter (fun r => r.wikipedia_title == t) [r2, r1] = [r2, r1] := by
      simp [List.filter_cons, e1, e2]
    rw [hf]
    simp only [List.map_cons, List.map_nil, hn, hq]
    decide

/-- C5 (witness). -/
theorem titleToId_order_invariant_witness :
    title_to_id [⟨"T", "1", none⟩, ⟨"T", "2", some "Q1"⟩] "T" false = some "Q1"
    ∧ title_to_id [⟨"T", "2", some "Q1"⟩, ⟨"T", "1", none⟩] "T" false = some "Q1" :=
  titleToId_order_invariant ⟨"T", "1", none⟩ ⟨"T", "2", some "Q1"⟩ "T" rfl rfl rfl rfl

/-- C6: when every row that matches `"manatee"` under the NOCASE collation has
title exactly `"Manatee"` (and such a row exists), the case-insensitive lookup
of `"manatee"` returns the same result as the case-sensitive lookup of
`"Manatee"`. -/
theorem titleToId_uncased_matches_cased (s : Store)
    (_hex : ∃ r ∈ s, r.wikipedia_title = "Manatee")
    (hcase : ∀ r ∈ s, nocaseEq r.wikipedia_title "manatee" = true →
      r.wikipedia_title = "Manatee") :
    title_to_id s "manatee" true = title_to_id s "Manatee" false := by
  have hfilter : s.filter (titleMatches true "manatee")
      = s.filter (titleMatches false "Manatee") := by
    refine List.filter_congr fun r hr => ?_
    by_cases hm : nocaseEq r.wikipedia_title "manatee" = true
    · have ht := hcase r hr hm
      have hmm : nocaseEq "Manatee" "manatee" = true := by decide
      simp [titleMatches, ht, hmm]
    · have hne : r.wikipedia_title ≠ "Manatee" := by
        intro he
        apply hm
        rw [he]
        decide
      simp only [titleMatches, if_pos, if_neg]
      rw [Bool.eq_false_iff.mpr hm, eq_comm, Bool.eq_false_iff]
      simp [hne]
  rw [title_to_id_find, title_to_id_find, hfilter]

/-- C6 (witness). -/
theorem titleToId_uncased_matches_cased_witness :
    title_to_id [⟨"Manatee", "1", some "Q42"⟩] "manatee" true
      = title_to_id [⟨"Manatee", "1", some "Q42"⟩] "Manatee" false :=
  titleToId_uncased_matches_cased [⟨"Manatee", "1", some "Q42"⟩]
    ⟨⟨"Manatee", "1", some "Q42"⟩, by decide, rfl⟩ (by decide)

/-- C7: each of the four query methods is read-only: the file system (hence
the set of rows of the store at every path) after the call equals the one
before it, and the mapper object is returned unchanged, carrying no mutable
state across calls. -/
theorem mapper_read_only (m : WikiMapper) (fs : FileSystem) (t u d p : String)
    (uncased : Bool) :
    ((m.titleToIdCall fs t uncased).2.1 = fs ∧ (m.titleToIdCall fs t uncased).2.2 = m)
    ∧ ((m.urlToIdCall fs u).2.1 = fs ∧ (m.urlToIdCall fs u).2.2 = m)
    ∧ ((m.idToTitlesCall fs d).2.1 = fs ∧ (m.idToTitlesCall fs d).2.2 = m)
    ∧ ((m.pidToIdCall fs p).2.1 = fs ∧ (m.pidToIdCall fs p).2.2 = m) := by
  refine ⟨⟨?_, rfl⟩, ⟨?_, rfl⟩, ⟨?_, rfl⟩, ⟨?_, rfl⟩⟩ <;>
    simp [WikiMapper.titleToIdCall, WikiMapper.urlToIdCall,
      WikiMapper.idToTitlesCall, WikiMapper.pidToIdCall, connectDB,
      Function.update_eq_self]

/-- C8: `pid_to_id` does not skip null values: when the first row matching
the page id carries a NULL `wikidata_id` (so the first distinct fetched value
is NULL), the call returns `none`, whatever later matching rows carry. -/
theorem pidToId_first_null_returns_none (s : Store) (p : String)
    (r : MappingRecord)
    (hfind : s.find? (fun x => x.wikipedia_id == p) = some r)
    (hnull : r.wikidata_id = none) :
    pid_to_id s p = none := by
  rw [pid_to_id_find, hfind]
  simp [hnull]

/-- C8 (witness): the second matching row carries `some "Q5"`, yet the call
returns `none` because the first matching row's wikidata id is NULL. -/
theorem pidToId_first_null_returns_none_witness :
    pid_to_id [⟨"A", "7", none⟩, ⟨"B", "7", some "Q5"⟩] "7" = none
    ∧ (⟨"B", "7", some "Q5"⟩ : MappingRecord).wikidata_id = some "Q5" :=
  ⟨pidToId_first_null_returns_none [⟨"A", "7", none⟩, ⟨"B", "7", some "Q5"⟩] "7"
      ⟨"A", "7", none⟩ (by decide) rfl,
   rfl⟩

/-- C9: `title_to_id` treats an empty-string wikidata id exactly like NULL:
when every matching row carries NULL or `""` the result is `none`, and the
function never returns the empty string. -/
theorem titleToId_empty_like_null (s : Store) (t : String) (u : Bool) :
    ((∀ r ∈ s, titleMatches u t r = true →
        r.wikidata_id = none ∨ r.wikidata_id = some "") →
      title_to_id s t u = none)
    ∧ title_to_id s t u ≠ some "" := by
  constructor
  · intro h
    rw [title_to_id_find, find?_truthy_none s t u h]
    rfl
  · intro heq
    rw [title_to_id_find] at heq
    cases hf : ((s.filter (titleMatches u t)).map (·.wikidata_id)).find? pyTruthy with
    | none =>
        rw [hf] at heq
        exact Option.noConfusion heq
    | some v =>
        have hpv : pyTruthy v = true := List.find?_some hf
        rw [hf] at heq
        have hv : v = some "" := heq
        rw [hv] at hpv
        simp [pyTruthy] at hpv

/-- C9 (witness). -/
theorem titleToId_empty_like_null_witness :
    title_to_id [⟨"T", "1", some ""⟩, ⟨"T", "2", none⟩] "T" true = none
    ∧ title_to_id [⟨"manatee", "1", some ""⟩] "manatee" false ≠ some "" :=
  ⟨(titleToId_empty_like_null [⟨"T", "1", some ""⟩, ⟨"T", "2", none⟩] "T" true).1
      (by decide),
   (titleToId_empty_like_null [⟨"manatee", "1", some ""⟩] "manatee" false).2⟩

/-- C10: on a URL containing no `/`, `url_to_id` uses the whole input as the
title: it equals `title_to_id` on that input (with default matching). -/
theorem urlToId_no_slash (s : Store) (u : String) (hu : '/' ∉ u.data) :
    url_to_id s u = title_to_id s u false := by
  rw [url_to_id, rsplitLast_no_slash u hu]

/-- C10 (witness). -/
theorem urlToId_no_slash_witness :
    url_to_id [⟨"Manatee", "1", some "Q42"⟩] "Manatee"
      = title_to_id [⟨"Manatee", "1", some "Q42"⟩] "Manatee" false :=
  urlToId_no_slash [⟨"Manatee", "1", some "Q42"⟩] "Manatee" (by decide)
